import Mathlib

/-!
Verification of the Etherscan request dispatcher
(`src/subproviders/etherscan.js`) against its natural-language
specification.

The development shallowly embeds the operations of the dispatcher:

* a model `JsVal` of the JavaScript values flowing through the callbacks
  (strings, numbers, `null`, `undefined`, `Error` objects, arrays, plain
  objects), together with JavaScript truthiness and string coercion;
* the response classification and error-normalization pipeline
  (`etherscanXHR`'s response callback, `normalizeError`,
  `normalizeCallback`, and the retry wrapper installed by
  `handleRequest`);
* query-string construction (`toQueryString`, `etherscanXHR`'s `qs`)
  with a faithful model of `encodeURIComponent`;
* the per-method parameter translation relevant to the claims
  (`pickNonNull` and the `eth_estimateGas` case of `handlePayload`);
* the drain loop (`_handleRequests`), the start/stop lifecycle, the
  `eth_getLogs` fan-out, and the lodash `throttle` rate limiter.
-/

/-- A JavaScript value, as needed to model the dispatcher's callbacks:
`undefined`, `null`, booleans, numbers (modelled as integers; the code
never produces non-integral numbers on these paths), strings, `Error`
objects (identified by their message), arrays and plain objects (ordered
field lists; the object literals in the source have distinct keys). -/
inductive JsVal where
  | undefined
  | nullv
  | bool (b : Bool)
  | num (n : Int)
  | str (s : String)
  | error (msg : String)
  | arr (xs : List JsVal)
  | obj (fields : List (String × JsVal))

/-- JavaScript truthiness: `undefined`, `null`, `false`, `0` and `""` are
falsy; every other value (including every object and array) is truthy. -/
def truthy : JsVal → Bool
  | .undefined => false
  | .nullv => false
  | .bool b => b
  | .num n => n != 0
  | .str s => s != ""
  | .error _ => true
  | .arr _ => true
  | .obj _ => true

mutual

/-- JavaScript string coercion `"" + v`, as used by `normalizeError`
(line 314) and by `encodeURIComponent` on non-string query values. -/
def jsToString : JsVal → String
  | .undefined => "undefined"
  | .nullv => "null"
  | .bool b => if b then "true" else "false"
  | .num n => toString n
  | .str s => s
  | .error m => "Error: " ++ m
  | .arr xs => jsToStringList xs
  | .obj _ => "[object Object]"

/-- Array-to-string coercion: elements joined with commas. -/
def jsToStringList : List JsVal → String
  | [] => ""
  | [x] => jsToString x
  | x :: y :: xs => jsToString x ++ "," ++ jsToStringList (y :: xs)

end

/-- Property lookup on an object's field list; an absent key reads as
`undefined`, as in JavaScript. -/
def getField (fields : List (String × JsVal)) (k : String) : JsVal :=
  match fields.find? (fun kv => kv.1 == k) with
  | some kv => kv.2
  | none => .undefined

/-- JavaScript property access `v[k]`: field lookup on objects,
`undefined` on every non-object value reached by the code. -/
def jsGet (v : JsVal) (k : String) : JsVal :=
  match v with
  | .obj fields => getField fields k
  | _ => .undefined

/-- `data.message !== 'OK'` is the negation of this check: strict
equality of a value with the string literal `"OK"`. -/
def isStrOK : JsVal → Bool
  | .str s => s == "OK"
  | _ => false

/-- `v == null` in JavaScript (loose equality), which holds exactly for
`null` and `undefined`; used by `pickNonNull` (line 303). -/
def isNullish : JsVal → Bool
  | .nullv => true
  | .undefined => true
  | _ => false

/-- `v instanceof Error`. -/
def isError : JsVal → Bool
  | .error _ => true
  | _ => false

/-- `normalizeError` (lines 311-315): an `Error` passes through; any
other value is wrapped into `new Error("" + err)`. -/
def normalizeError (err : JsVal) : JsVal :=
  match err with
  | .error m => .error m
  | e => .error (jsToString e)

/-- The error transformation performed by the callback returned by
`normalizeCallback` (lines 317-323): a truthy error is replaced by
`normalizeError err`; a falsy error (e.g. `undefined`, `""`) is passed
through unchanged, bypassing normalization. -/
def normalizeCallbackErr (err : JsVal) : JsVal :=
  if truthy err then normalizeError err else err

/-- The retry signal compared (with `===`) by the wrapper installed in
`handleRequest` (line 97). -/
def forbiddenMsg : String := "403 - Forbidden: Access is denied."

/-- `err === '403 - Forbidden: Access is denied.'`: strict equality of a
value with that string literal. -/
def isForbiddenSignal : JsVal → Bool
  | .str s => s == forbiddenMsg
  | _ => false

/-- The terminal fate of a request item once its raw `(err, result)`
outcome reaches `requestObject.end`. -/
inductive EndOutcome where
  | requeued
  | completed (err result : JsVal)

/-- `requestObject.end` as set up by `handleRequest` (lines 91-101): the
caller's `end` is first wrapped by `normalizeCallback`; when
`retryFailed` is set, a further wrapper intercepts the forbidden signal
and re-queues the item instead of completing, and otherwise forwards the
raw outcome to the normalized callback. -/
def retryWrapEnd (retryFailed : Bool) (rawErr rawResult : JsVal) : EndOutcome :=
  if retryFailed && isForbiddenSignal rawErr then .requeued
  else .completed (normalizeCallbackErr rawErr) rawResult

/-- Response classification in `etherscanXHR`'s body handler
(lines 277-288), applied to the parsed JSON `data`: the pair of
arguments passed to `end`.  In proxy mode a truthy `data.error` yields
`end(data.error.message || data.error)`; in account mode a `data.message`
differing from `"OK"` yields `end(data.message)` (a single argument, so
the result slot is `undefined`); otherwise `end(null, data.result)`. -/
def classifyResponse (module : String) (data : JsVal) : JsVal × JsVal :=
  if module == "proxy" && truthy (jsGet data "error") then
    (if truthy (jsGet (jsGet data "error") "message") then
      jsGet (jsGet data "error") "message"
     else jsGet data "error", .undefined)
  else if module == "account" && !isStrOK (jsGet data "message") then
    (jsGet data "message", .undefined)
  else
    (.nullv, jsGet data "result")

/-- The whole response callback passed to `xhr` in `etherscanXHR`
(lines 249-289), as a function of the transport outcome: a truthy
transport error is forwarded as-is; an HTTP status above 300 fails with
`res.statusMessage || body`; then the body is parsed as JSON — the
`parsed` argument models the outcome of the external `JSON.parse`
builtin on `body` (`none` models a parse failure, whose thrown
`SyntaxError` is an `Error` object surfaced via `end(err)`) — and the
parsed data is classified by `classifyResponse`.  Returns the argument
pair passed to `end`. -/
def xhrCallback (module : String) (err : JsVal) (statusCode : Nat)
    (statusMessage : JsVal) (body : String) (parsed : Option JsVal) :
    JsVal × JsVal :=
  if truthy err then (err, .undefined)
  else if 300 < statusCode then
    ((if truthy statusMessage then statusMessage else .str body), .undefined)
  else
    match parsed with
    | none => (.error "Unexpected token in JSON", .undefined)
    | some data => classifyResponse module data

/-- Written from the spec's words (for comparison with
`classifyResponse`): a proxy-style body fails exactly when its `error`
field holds a truthy value, surfacing that error's `message` when the
message is truthy and otherwise the whole error value. -/
def proxyError (data : JsVal) : Option JsVal :=
  let e := jsGet data "error"
  if truthy e then
    some (if truthy (jsGet e "message") then jsGet e "message" else e)
  else none

/-- Written from the spec's words (for comparison with
`classifyResponse`): an account-style body fails exactly when its
`message` field differs from the literal string `"OK"`, surfacing the
message value itself. -/
def accountError (data : JsVal) : Option JsVal :=
  if isStrOK (jsGet data "message") then none
  else some (jsGet data "message")

/-- Written from the spec's words: the classification of a parsed body —
the mode-specific error when one is signalled, and otherwise success
with exactly the `result` field of the body. -/
def classifySpec (module : String) (data : JsVal) : JsVal × JsVal :=
  let failure : Option JsVal :=
    if module == "proxy" then proxyError data
    else if module == "account" then accountError data
    else none
  match failure with
  | some e => (e, .undefined)
  | none => (.nullv, jsGet data "result")

/-- The characters `encodeURIComponent` leaves unescaped:
`A-Z a-z 0-9 - _ . ! ~ * ' ( )`. -/
def uriUnreserved (c : Char) : Bool :=
  c.isAlphanum || c == '-' || c == '_' || c == '.' || c == '!' ||
    c == '~' || c == '*' || c == Char.ofNat 39 || c == '(' || c == ')'

/-- Uppercase hexadecimal digit for `n < 16`. -/
def hexDigitChar (n : Nat) : Char :=
  if n < 10 then Char.ofNat (48 + n) else Char.ofNat (55 + n)

/-- The UTF-8 bytes of a character, as percent-escaped by
`encodeURIComponent`. -/
def utf8Bytes (c : Char) : List Nat :=
  let n := c.toNat
  if n < 0x80 then [n]
  else if n < 0x800 then [0xC0 + n / 64, 0x80 + n % 64]
  else if n < 0x10000 then
    [0xE0 + n / 4096, 0x80 + (n / 64) % 64, 0x80 + n % 64]
  else
    [0xF0 + n / 262144, 0x80 + (n / 4096) % 64, 0x80 + (n / 64) % 64,
      0x80 + n % 64]

/-- A percent-escape `%XY` for one byte. -/
def percentBytes (b : Nat) : List Char :=
  ['%', hexDigitChar (b / 16), hexDigitChar (b % 16)]

/-- The encoding of one character: unreserved characters pass through,
everything else becomes the percent-escapes of its UTF-8 bytes. -/
def encodeChar (c : Char) : List Char :=
  if uriUnreserved c then [c] else ((utf8Bytes c).map percentBytes).flatten

/-- The ECMAScript `encodeURIComponent` builtin used by `toQueryString`
(line 232), modelled per its specification on Unicode strings. -/
def encodeURIComponent (s : String) : String :=
  ⟨(s.data.map encodeChar).flatten⟩

/-- `toQueryString` (lines 230-234): each key/value pair of the params
object is rendered as `encodeURIComponent(k) + '=' + encodeURIComponent(v)`
(the value undergoing JavaScript string coercion) and the pairs are
joined with `&`, in the object's insertion order. -/
def toQueryString (params : List (String × JsVal)) : String :=
  String.intercalate "&"
    (params.map fun kv =>
      encodeURIComponent kv.1 ++ "=" ++ encodeURIComponent (jsToString kv.2))

/-- The query string built by `etherscanXHR` (line 238):
`toQueryString({ module, action }) + '&' + toQueryString(params)`.
Nothing else is ever appended; in particular the code has no API-key
option. -/
def etherscanQueryString (module action : String)
    (params : List (String × JsVal)) : String :=
  toQueryString [("module", .str module), ("action", .str action)]
    ++ "&" ++ toQueryString params

/-- `pickNonNull` (lines 300-309): keeps, in order, the fields whose
value is neither `null` nor `undefined` (the JavaScript `!= null`
test). -/
def pickNonNull (obj : List (String × JsVal)) : List (String × JsVal) :=
  obj.filter fun kv => !isNullish kv.2

/-- The `eth_estimateGas` case of `handlePayload` (lines 118-125): the
query parameters are `pickNonNull` of the `to`, `value`, `gasPrice` and
`gas` fields of the first RPC parameter. -/
def estimateGasParams (params0 : JsVal) : List (String × JsVal) :=
  pickNonNull
    [("to", jsGet params0 "to"), ("value", jsGet params0 "value"),
      ("gasPrice", jsGet params0 "gasPrice"), ("gas", jsGet params0 "gas")]

/-- The constructor's `times` option (line 40):
`isNaN(opts.times) ? 4 : opts.times` — 4 when absent. -/
def timesOf (optTimes : Option Nat) : Nat :=
  match optTimes with
  | none => 4
  | some t => t

/-- The body of the drain loop in `_handleRequests` (lines 79-84): the
loop always runs `times` iterations; each iteration `shift`s the queue
head, and a `shift` of an empty queue yields `undefined` and is skipped.
Returns the items handed to the throttled `_handlePayload`, in order,
together with the remaining queue. -/
def drainLoop {α : Type} : Nat → List α → List α × List α
  | 0, q => ([], q)
  | _ + 1, [] => ([], [])
  | n + 1, x :: q =>
    let r := drainLoop n q
    (x :: r.1, r.2)

/-- `_handleRequests` (lines 74-85): an empty queue returns at once;
otherwise the drain loop runs. -/
def drainTick {α : Type} (times : Nat) (q : List α) : List α × List α :=
  if q.length = 0 then ([], q) else drainLoop times q

/-- `n` successive drain ticks with no interleaved submissions: the
concatenation, in order, of the items each tick hands to the throttled
executor. -/
def drainRounds {α : Type} (times : Nat) : Nat → List α → List α
  | 0, _ => []
  | n + 1, q =>
    let r := drainTick times q
    r.1 ++ drainRounds times n r.2

/-- The constructor's throttle wait (line 44):
`opts.maxRequestsPerSecond || 5` — `0` is falsy, so it also falls back
to the default 5. -/
def throttleWaitOf (optMax : Option Nat) : Nat :=
  match optMax with
  | none => 5
  | some n => if n = 0 then 5 else n

/-- Modelled from the spec: the lodash `throttle(func, wait)` collaborator
(line 45) is a library dependency whose code is not under `src/`.  Per the
lodash documentation, the throttled function invokes `func` at most once
per every `wait` *milliseconds*, invoking on the leading edge of the
window, deferring calls that arrive inside a window — each deferred call
replacing the previously deferred one — and invoking the latest deferred
call on the trailing edge of the window.

The model processes the timestamped calls `(time, index)` in order
(times non-decreasing, as produced by the event loop) from a state
`(lastInvoke?, pending?)` and returns the timestamped invocations that
begin, in order.  A trailing invocation fires `wait` ms after the last
invocation and itself opens a new window. -/
def throttleRun (wait : Nat) : Option Nat → Option Nat → List (Nat × Nat) →
    List (Nat × Nat)
  | none, _, [] => []
  | some _, none, [] => []
  | some l, some p, [] => [(l + wait, p)]
  | none, _, (t, i) :: rest => (t, i) :: throttleRun wait (some t) none rest
  | some l, none, (t, i) :: rest =>
    if l + wait ≤ t then (t, i) :: throttleRun wait (some t) none rest
    else throttleRun wait (some l) (some i) rest
  | some l, some p, (t, i) :: rest =>
    if l + wait ≤ t then
      if l + wait + wait ≤ t then
        (l + wait, p) :: (t, i) :: throttleRun wait (some t) none rest
      else
        (l + wait, p) :: throttleRun wait (some (l + wait)) (some i) rest
    else throttleRun wait (some l) (some i) rest

/-- One resolved receipt fetch inside the `eth_getLogs` fan-out
(lines 193-197).  The callback evaluates `logs.concat(receiptResult.logs)`
— in JavaScript `Array.prototype.concat` returns a fresh array and leaves
its receiver unchanged, and the source discards the returned array — then
increments `txProcessed`, and calls `end(null, logs)` exactly when the
count reaches the transaction count `T`.  Returns the new counter, the
(unchanged) accumulator, and the emitted completion value, if any. -/
def getLogsReceiptCb {α : Type} (T txProcessed : Nat) (logs receiptLogs : List α) :
    Nat × List α × Option (List α) :=
  let _discardedConcat := logs ++ receiptLogs
  let txProcessed' := txProcessed + 1
  (txProcessed', logs, if txProcessed' = T then some logs else none)

/-- Resolves the `T` receipt fetches of the fan-out in order;
`receipts` lists the `receiptResult.logs` each fetch yields (a fetch
that errs skips the concat but is counted just the same, so an erring
fetch behaves like `receiptLogs = []`).  Returns the list of values the
fan-out passes to `end`, in order. -/
def runGetLogsAux {α : Type} (T : Nat) :
    Nat → List α → List (List α) → List (List α)
  | _, _, [] => []
  | txProcessed, logs, r :: rs =>
    let s := getLogsReceiptCb T txProcessed logs r
    match s.2.2 with
    | some v => v :: runGetLogsAux T s.1 s.2.1 rs
    | none => runGetLogsAux T s.1 s.2.1 rs

/-- The `eth_getLogs` case of `handlePayload` (lines 182-200), after the
block fetch succeeds with `T = receipts.length` transactions: the
`for...in` loop fans out one receipt fetch per transaction key, starting
from `txProcessed = 0` and `logs = []`, and the completion fires when
`txProcessed === blockResult.transactions.length`.  Returns every value
passed to `end`. -/
def runGetLogs {α : Type} (receipts : List (List α)) : List (List α) :=
  runGetLogsAux receipts.length 0 [] receipts

/-- The dispatcher state touched by `start`/`stop` (lines 35-65):
the `_running` flag, the stored `intervalId` handle, the set of live
interval timers of the runtime (`setInterval` allocates a fresh handle,
`clearInterval` removes the named one), a fresh-handle counter, and the
throttle's not-yet-executed trailing call (`_handlePayload.cancel()`
drops it). -/
structure DispatcherState where
  running : Bool
  intervalId : Option Nat
  activeTimers : List Nat
  nextTimerId : Nat
  throttlePending : Bool
deriving DecidableEq, Repr

/-- The state established by the constructor (lines 35-47):
`_running = false`, no timer allocated yet. -/
def initState : DispatcherState :=
  { running := false, intervalId := none, activeTimers := [],
    nextTimerId := 0, throttlePending := false }

/-- `start` (lines 49-55): a no-op when already running; otherwise
`setInterval` allocates a fresh timer, its handle is stored, and
`_running` is set. -/
def startOp (s : DispatcherState) : DispatcherState :=
  if s.running then s
  else
    { s with intervalId := some s.nextTimerId,
             activeTimers := s.nextTimerId :: s.activeTimers,
             nextTimerId := s.nextTimerId + 1,
             running := true }

/-- `stop` (lines 57-65): a no-op when not running; otherwise the
throttle's backed-up call is cancelled, `clearInterval` removes the
stored timer, and `_running` is cleared (the stale `intervalId` handle
is left in place, as in the source). -/
def stopOp (s : DispatcherState) : DispatcherState :=
  if !s.running then s
  else
    { s with throttlePending := false,
             activeTimers := match s.intervalId with
               | some id => s.activeTimers.erase id
               | none => s.activeTimers,
             running := false }

/-- One drain-and-execute cycle for the head item of the queue, as seen
by the retry policy: the head is `shift`ed, executed —
`executor item` gives the raw `(err, result)` its remote call yields —
and its `requestObject.end` wrapper (`retryWrapEnd`) either pushes the
item back onto the tail (line 98) or appends a delivery to the caller's
completion log.  An empty queue is left untouched. -/
def execCycle (retryFailed : Bool) (executor : Nat → JsVal × JsVal)
    (s : List Nat × List (Nat × JsVal × JsVal)) :
    List Nat × List (Nat × JsVal × JsVal) :=
  match s.1 with
  | [] => s
  | item :: rest =>
    match retryWrapEnd retryFailed (executor item).1 (executor item).2 with
    | .requeued => (rest ++ [item], s.2)
    | .completed e r => (rest, s.2 ++ [(item, e, r)])

/-! ## Helper lemmas -/

theorem drainLoop_eq {α : Type} (n : Nat) (q : List α) :
    drainLoop n q = (q.take n, q.drop n) := by
  induction n generalizing q with
  | zero => simp [drainLoop]
  | succ n ih =>
    cases q with
    | nil => simp [drainLoop]
    | cons x q => simp [drainLoop, ih]

theorem drainTick_eq {α : Type} (times : Nat) (q : List α) :
    drainTick times q = (q.take times, q.drop times) := by
  unfold drainTick
  by_cases h : q.length = 0
  · rw [List.length_eq_zero] at h
    subst h
    simp
  · rw [if_neg h, drainLoop_eq]

theorem isError_normalizeError (e : JsVal) : isError (normalizeError e) = true := by
  cases e <;> rfl

theorem getLogsAux_eq {α : Type} :
    ∀ (rs : List (List α)) (k : Nat) (l : List α),
      runGetLogsAux (k + rs.length) k l rs = if rs.isEmpty then [] else [l] := by
  intro rs
  induction rs with
  | nil => intro k l; simp [runGetLogsAux]
  | cons r rs ih =>
    intro k l
    simp only [runGetLogsAux, getLogsReceiptCb]
    cases rs with
    | nil => simp [runGetLogsAux]
    | cons r2 rs2 =>
      have hne : ¬ (k + 1 = k + (r :: r2 :: rs2).length) := by
        simp only [List.length_cons]
        omega
      rw [if_neg hne]
      have := ih (k + 1) l
      simp only [List.length_cons] at this ⊢
      rw [show k + (rs2.length + 1 + 1) = k + 1 + (rs2.length + 1) by omega]
      simpa using this

/-! ## C9: idempotent start/stop -/

/-- C9: from any dispatcher state, `start` is idempotent (a second
`start` allocates no further timer and leaves the state exactly as one
`start` left it), `stop` is idempotent, `stop` before any `start` leaves
the fresh state untouched, `start` marks the dispatcher running and
`stop` marks it not running. -/
theorem start_stop_idempotent (s : DispatcherState) :
    startOp (startOp s) = startOp s ∧ stopOp (stopOp s) = stopOp s ∧
    stopOp initState = initState ∧ (startOp s).running = true ∧
    (stopOp s).running = false := by
  refine ⟨?_, ?_, ?_, ?_, ?_⟩
  · by_cases h : s.running <;> simp [startOp, h]
  · by_cases h : s.running <;> simp [stopOp, h]
  · simp [stopOp, initState]
  · by_cases h : s.running <;> simp [startOp, h]
  · by_cases h : s.running <;> simp [stopOp, h]

/-! ## C5: drain tick pops min(times, length) items, strict FIFO -/

/-- C5: one drain tick hands exactly `min times (queue length)` items to
the throttled executor, those items are precisely the queue's head
segment in order, the remainder of the queue is untouched, iterated
drain ticks with no interleaved submissions process the submitted items
in exactly submission order (each round of `n` ticks handles the first
`times * n` submissions, in order), and the default `times` is 4. -/
theorem drain_fifo {α : Type} (times : Nat) (q : List α) :
    (drainTick times q).1 = q.take times ∧
    ((drainTick times q).1).length = min times q.length ∧
    (drainTick times q).2 = q.drop times ∧
    (∀ n, drainRounds times n q = q.take (times * n)) ∧
    timesOf none = 4 := by
  refine ⟨?_, ?_, ?_, ?_, rfl⟩
  · rw [drainTick_eq]
  · rw [drainTick_eq]; simp
  · rw [drainTick_eq]
  · intro n
    induction n generalizing q with
    | zero => simp [drainRounds]
    | succ n ih =>
      have : times * (n + 1) = times + times * n := by ring
      rw [this, List.take_add]
      simp only [drainRounds, drainTick_eq]
      rw [ih]

/-! ## C1: the eth_getLogs fan-out (code bug) -/

/-- C1 (code bug): for every fan-out of `T = receipts.length` receipt
fetches, the `eth_getLogs` handler completes with the *empty* log list
whenever `T ≥ 1` — the `logs.concat(...)` result is discarded, so the
aggregate never contains the receipts' log entries — and never completes
at all when `T = 0`, since `end(null, logs)` is only reachable from
inside a receipt callback.  In particular, at the failing input of one
transaction whose receipt yields one log, the completion carries zero
log entries instead of 1×1. -/
theorem getLogs_aggregation_bug {α : Type} (receipts : List (List α)) :
    runGetLogs receipts = if receipts.isEmpty then [] else [[]] := by
  have h := getLogsAux_eq receipts 0 ([] : List α)
  rw [Nat.zero_add] at h
  exact h

/-! ## C4: retry-on-forbidden re-queues forever -/

/-- C4: with retry-on-forbidden enabled (the default), an item whose
execution yields the forbidden signal is pushed back onto the tail of
the queue and the caller's completion is not invoked; consequently an
item whose execution always yields that signal is, after any number of
drain cycles, still queued and never delivered to the completion log. -/
theorem retry_forbidden_requeues (executor : Nat → JsVal × JsVal)
    (hforb : ∀ i, (executor i).1 = .str forbiddenMsg) :
    (∀ item rest comps,
      execCycle true executor (item :: rest, comps) = (rest ++ [item], comps)) ∧
    (∀ n, (execCycle true executor)^[n] ([0], []) = ([0], [])) := by
  have h1 : ∀ item rest comps,
      execCycle true executor (item :: rest, comps) = (rest ++ [item], comps) := by
    intro item rest comps
    simp [execCycle, retryWrapEnd, isForbiddenSignal, hforb item]
  refine ⟨h1, ?_⟩
  intro n
  induction n with
  | zero => rfl
  | succ n ih =>
    rw [Function.iterate_succ_apply', ih]
    simpa using h1 0 [] []

/-- Witness for C4 at a concrete always-forbidden executor: after three
drain cycles the item is still queued and nothing was delivered. -/
theorem retry_forbidden_requeues_witness :
    (execCycle true (fun _ => (.str forbiddenMsg, .undefined)))^[3] ([0], []) =
      ([0], []) :=
  (retry_forbidden_requeues (fun _ => (.str forbiddenMsg, .undefined))
    (fun _ => rfl)).2 3

/-! ## C10: account-style body without a message field -/

/-- C10: for every account-style parsed body with no `message` field,
`data.message` reads as `undefined`, `undefined !== 'OK'` sends the
single-argument `end(undefined)`, the forbidden-signal check does not
match and the falsy `undefined` bypasses `normalizeCallback`'s
normalization — so the caller's completion is invoked with an undefined
error and an undefined result (a success-shaped completion carrying no
result). -/
theorem account_missing_message_silent (data : JsVal)
    (h : jsGet data "message" = .undefined) :
    retryWrapEnd true (classifyResponse "account" data).1
      (classifyResponse "account" data).2 =
      .completed .undefined .undefined := by
  simp [classifyResponse, h, retryWrapEnd, isForbiddenSignal, isStrOK,
    normalizeCallbackErr, truthy]

/-- Witness for C10: a concrete account body carrying only `status` and
`result` fields. -/
theorem account_missing_message_silent_witness :
    retryWrapEnd true
      (classifyResponse "account"
        (.obj [("status", .str "1"), ("result", .str "0x5")])).1
      (classifyResponse "account"
        (.obj [("status", .str "1"), ("result", .str "0x5")])).2 =
      .completed .undefined .undefined :=
  account_missing_message_silent
    (.obj [("status", .str "1"), ("result", .str "0x5")]) rfl

/-! ## C7: error normalization (corrected) -/

/-- C7 counterexample: an HTTP failure (status 404) whose
`statusMessage` is undefined and whose body is empty is a terminal error
outcome — `end(res.statusMessage || body)` fires with `""` — yet the
value reaching the caller's completion is the unwrapped empty string,
not an Error object: the falsy `""` bypasses `normalizeCallback`'s
wrapping. -/
theorem error_normalization_counterexample :
    retryWrapEnd true
        (xhrCallback "proxy" .undefined 404 .undefined "" (some (.obj []))).1
        (xhrCallback "proxy" .undefined 404 .undefined "" (some (.obj []))).2 =
      .completed (.str "") .undefined ∧
    isError (.str "") = false := by
  exact ⟨rfl, rfl⟩

/-- C7 as amended: every *truthy* raw error value completing a request
is delivered to the caller as an Error object — `normalizeCallback`
wraps every truthy non-Error error — while falsy raw error signals are
the only ones escaping normalization. -/
theorem truthy_errors_normalized (rf : Bool) (rawErr rawRes err res : JsVal)
    (ht : truthy rawErr = true)
    (hc : retryWrapEnd rf rawErr rawRes = .completed err res) :
    isError err = true ∧ err = normalizeError rawErr := by
  unfold retryWrapEnd at hc
  by_cases hf : (rf && isForbiddenSignal rawErr) = true
  · rw [if_pos hf] at hc
    exact absurd hc (by intro hcon; cases hcon)
  · rw [if_neg hf] at hc
    injection hc with he hr
    rw [← he]
    unfold normalizeCallbackErr
    rw [if_pos ht]
    exact ⟨isError_normalizeError rawErr, rfl⟩

/-- Witness for C7's amended theorem at a concrete truthy string error. -/
theorem truthy_errors_normalized_witness :
    isError (normalizeError (.str "boom")) = true :=
  (truthy_errors_normalized false (.str "boom") .undefined
    (normalizeError (.str "boom")) .undefined rfl rfl).1

/-! ## C6: response classification (corrected) -/

/-- C6 counterexample: a proxy-style body in which the `error` field is
*present* but falsy (`error: 0`) alongside `result: 42`.  The claim says
a present `error` field makes the completion receive an error carrying
the error value; the code instead tests `data.error` for truthiness and
succeeds with the `result` field — the delivered pair is
`(null, 42)`, not an error carrying `0`. -/
theorem response_classification_counterexample :
    classifyResponse "proxy" (.obj [("error", .num 0), ("result", .num 42)]) =
      (.nullv, .num 42) ∧
    truthy JsVal.nullv = false ∧ truthy (JsVal.num 0) = false :=
  ⟨rfl, rfl, rfl⟩

/-- C6 as amended: the classification of every parsed body agrees with
the spec-shaped classifier in which the proxy-style error case fires
exactly when the `error` field holds a *truthy* value (not merely a
present one), the account-style case fires exactly when `message`
differs from the literal `"OK"`, and every other body succeeds with
exactly its `result` field. -/
theorem response_classification_amended (module : String) (data : JsVal) :
    classifyResponse module data = classifySpec module data := by
  unfold classifyResponse classifySpec proxyError accountError
  by_cases hp : (module == "proxy") = true
  · have hpa : (module == "account") = false := by
      rw [beq_iff_eq] at hp
      subst hp
      rfl
    by_cases he : truthy (jsGet data "error") = true
    · simp [hp, hpa, he]
    · simp [hp, hpa, Bool.eq_false_iff.mpr he]
  · by_cases ha : (module == "account") = true
    · by_cases hm : isStrOK (jsGet data "message") = true
      · simp [Bool.eq_false_iff.mpr hp, ha, hm]
      · simp [Bool.eq_false_iff.mpr hp, ha, Bool.eq_false_iff.mpr hm]
    · simp [Bool.eq_false_iff.mpr hp, Bool.eq_false_iff.mpr ha]

/-! ## C3: query-string layout -/

/-- C3: for every outgoing remote call, the query string is exactly the
percent-encoded `module` and `action` pairs first, then the
method-specific parameters — and nothing after them.  The constructor
(lines 35-47) recognizes no API-key option and `etherscanXHR` appends
none, so the unconfigured-key case always holds and the key is omitted
from every call. -/
theorem queryString_layout (module action : String)
    (params : List (String × JsVal)) :
    etherscanQueryString module action params =
      "module=" ++ encodeURIComponent module ++ "&" ++
        ("action=" ++ encodeURIComponent action) ++ "&" ++
        toQueryString params := rfl

/-! ## C2: the rate limiter (corrected) -/

/-- C2 counterexample: with the default configuration the constructor
passes `maxRequestsPerSecond = 5` to lodash `throttle` as its `wait`
argument, i.e. five *milliseconds*.  Six releases spaced 5 ms apart —
all inside a single 1-second window — all begin execution, exceeding the
claimed five-per-second cap; and of three releases at 0, 1 and 2 ms, the
middle one is dropped by the limiter (only releases 0 and 2 ever
execute), contradicting the claim that excess releases are queued and
all executed. -/
theorem throttle_rate_counterexample :
    5 < ((throttleRun (throttleWaitOf none) none none
          [(0, 0), (5, 1), (10, 2), (15, 3), (20, 4), (25, 5)]).filter
            (fun e => e.1 < 1000)).length ∧
    (throttleRun (throttleWaitOf none) none none
        [(0, 0), (1, 1), (2, 2)]).map Prod.snd = [0, 2] := by
  exact ⟨by decide, by decide⟩

/-- Invariant behind the amended C2: prefixing the run with a sentinel
invocation at the `lastInvoke` time, every adjacent pair of invocations
the limiter begins is at least `wait` ms apart. -/
theorem throttleRun_gap_aux (wait : Nat) :
    ∀ (calls : List (Nat × Nat)) (li pd : Option Nat),
      List.Chain' (fun a b : Nat × Nat => a.1 + wait ≤ b.1)
        ((li.map fun l => (l, 0)).toList ++ throttleRun wait li pd calls) := by
  intro calls
  induction calls with
  | nil =>
    rintro (_ | l) (_ | p) <;> simp [throttleRun]
  | cons c rest ih =>
    obtain ⟨t, i⟩ := c
    have swap : ∀ (a j k : Nat) (l : List (Nat × Nat)),
        List.Chain' (fun a b : Nat × Nat => a.1 + wait ≤ b.1) ((a, j) :: l) →
        List.Chain' (fun a b : Nat × Nat => a.1 + wait ≤ b.1) ((a, k) :: l) := by
      intro a j k l h
      rw [List.chain'_cons'] at h ⊢
      exact h
    rintro (_ | l) (_ | p)
    · simpa [throttleRun] using swap t 0 i _ (by simpa using ih (some t) none)
    · simpa [throttleRun] using swap t 0 i _ (by simpa using ih (some t) none)
    · by_cases h : l + wait ≤ t
      · simp only [throttleRun, if_pos h, Option.map_some', Option.toList_some,
          List.singleton_append]
        refine List.chain'_cons'.mpr ⟨?_, ?_⟩
        · intro y hy
          simp only [List.head?_cons, Option.mem_def, Option.some.injEq] at hy
          subst hy
          exact h
        · exact swap t 0 i _ (by simpa using ih (some t) none)
      · simp only [throttleRun, if_neg h, Option.map_some', Option.toList_some,
          List.singleton_append]
        simpa using ih (some l) (some i)
    · by_cases h1 : l + wait ≤ t
      · by_cases h2 : l + wait + wait ≤ t
        · simp only [throttleRun, if_pos h1, if_pos h2, Option.map_some',
            Option.toList_some, List.singleton_append]
          refine List.chain'_cons'.mpr ⟨?_, List.chain'_cons'.mpr ⟨?_, ?_⟩⟩
          · intro y hy
            simp only [List.head?_cons, Option.mem_def, Option.some.injEq] at hy
            subst hy
            exact Nat.le_refl _
          · intro y hy
            simp only [List.head?_cons, Option.mem_def, Option.some.injEq] at hy
            subst hy
            exact h2
          · exact swap t 0 i _ (by simpa using ih (some t) none)
        · simp only [throttleRun, if_pos h1, if_neg h2, Option.map_some',
            Option.toList_some, List.singleton_append]
          refine List.chain'_cons'.mpr ⟨?_, ?_⟩
          · intro y hy
            simp only [List.head?_cons, Option.mem_def, Option.some.injEq] at hy
            subst hy
            exact Nat.le_refl _
          · exact swap (l + wait) 0 p _
              (by simpa using ih (some (l + wait)) (some i))
      · simp only [throttleRun, if_neg h1, Option.map_some', Option.toList_some,
          List.singleton_append]
        simpa using ih (some l) (some i)

/-- C2 as amended: the limiter is lodash `throttle` with
`wait = maxRequestsPerSecond` interpreted as milliseconds, so successive
executions begin at least `wait` ms apart (with the default 5 this
allows up to 200 executions per second, not 5); and a release arriving
inside a window replaces the previously deferred release, which is
dropped — excess releases are coalesced to the most recent one, not
queued. -/
theorem throttle_wait_gap_and_drop (wait : Nat) :
    (∀ calls, List.Chain' (fun a b : Nat × Nat => a.1 + wait ≤ b.1)
      (throttleRun wait none none calls)) ∧
    (∀ l p t i rest, t < l + wait →
      throttleRun wait (some l) (some p) ((t, i) :: rest) =
        throttleRun wait (some l) (some i) rest) := by
  constructor
  · intro calls
    simpa using throttleRun_gap_aux wait calls none none
  · intro l p t i rest h
    simp only [throttleRun, if_neg (Nat.not_le.mpr h)]

/-- Witness for C2's amended theorem: a release 2 ms into a 5 ms window
replaces the deferred release 1, which never executes. -/
theorem throttle_wait_gap_and_drop_witness :
    throttleRun 5 (some 0) (some 1) [(2, 2)] =
      throttleRun 5 (some 0) (some 2) [] :=
  (throttle_wait_gap_and_drop 5).2 0 1 2 2 [] (by decide)


/-! ## C8: null omission in eth_estimateGas -/

theorem toDigitsCore_len_le (b : Nat) :
    ∀ (f n : Nat) (ds : List Char),
      ds.length ≤ (Nat.toDigitsCore b f n ds).length := by
  intro f
  induction f with
  | zero => intro n ds; simp [Nat.toDigitsCore]
  | succ f ih =>
    intro n ds
    simp only [Nat.toDigitsCore]
    by_cases h : n / b = 0
    · simp [h]
    · rw [if_neg h]
      calc ds.length ≤ (Nat.digitChar (n % b) :: ds).length := by simp
        _ ≤ _ := ih (n / b) (Nat.digitChar (n % b) :: ds)

theorem nat_repr_ne_empty (n : Nat) : Nat.repr n ≠ "" := by
  have h1 : 1 ≤ (Nat.toDigits 10 n).length := by
    unfold Nat.toDigits
    simp only [Nat.toDigitsCore]
    by_cases h : n / 10 = 0
    · simp [h]
    · rw [if_neg h]
      have := toDigitsCore_len_le 10 n (n / 10) [Nat.digitChar (n % 10)]
      simpa using this
  intro hcon
  have h2 : (Nat.repr n).length = 0 := by rw [hcon]; rfl
  have h3 : (Nat.repr n).length = (Nat.toDigits 10 n).length := rfl
  omega

theorem int_repr_ne_empty (n : Int) : Int.repr n ≠ "" := by
  cases n with
  | ofNat m => exact nat_repr_ne_empty m
  | negSucc m =>
    intro hcon
    have h2 : (Int.repr (Int.negSucc m)).length = 0 := by rw [hcon]; rfl
    have h3 : (Int.repr (Int.negSucc m)).length = 1 + (Nat.repr (m + 1)).length := by
      show ("-" ++ Nat.repr (m + 1)).length = 1 + (Nat.repr (m + 1)).length
      rw [String.length_append]
      rfl
    omega

theorem utf8Bytes_ne_nil (c : Char) : utf8Bytes c ≠ [] := by
  simp only [utf8Bytes]
  split_ifs <;> simp

theorem encodeChar_ne_nil (c : Char) : encodeChar c ≠ [] := by
  unfold encodeChar
  by_cases h : uriUnreserved c
  · simp [h]
  · rw [if_neg h]
    cases hu : utf8Bytes c with
    | nil => exact absurd hu (utf8Bytes_ne_nil c)
    | cons b bs => simp [hu, percentBytes]

theorem encodeURIComponent_ne_empty (s : String) (h : s ≠ "") :
    encodeURIComponent s ≠ "" := by
  intro hcon
  apply h
  have hdata : (s.data.map encodeChar).flatten = [] := congrArg String.data hcon
  cases hd : s.data with
  | nil =>
    apply String.ext
    rw [hd]
  | cons c cs =>
    rw [hd] at hdata
    simp only [List.map_cons, List.flatten_cons, List.append_eq_nil] at hdata
    exact absurd hdata.1 (encodeChar_ne_nil c)

/-- C8: in the `eth_estimateGas` translation a key appears in the query
parameters exactly when it is one of `to`, `value`, `gasPrice`, `gas`
and its value in the request is neither `null` nor absent (`undefined`),
in which case it carries exactly that value — null/absent parameters are
omitted entirely; and a numeric value never serializes to an empty query
value, so no included numeric key is ever rendered as `key=`. -/
theorem estimateGas_null_omission (params0 : JsVal) :
    (∀ k v, (k, v) ∈ estimateGasParams params0 ↔
      (k ∈ (["to", "value", "gasPrice", "gas"] : List String) ∧
        v = jsGet params0 k ∧ isNullish v = false)) ∧
    (∀ n : Int, encodeURIComponent (jsToString (.num n)) ≠ "") := by
  constructor
  · intro k v
    simp only [estimateGasParams, pickNonNull, List.mem_filter, List.mem_cons,
      List.not_mem_nil, or_false, Prod.mk.injEq, Bool.not_eq_true',
      Bool.not_eq_eq_eq_not, Bool.not_true]
    constructor
    · rintro ⟨(⟨rfl, rfl⟩ | ⟨rfl, rfl⟩ | ⟨rfl, rfl⟩ | ⟨rfl, rfl⟩), hnn⟩ <;>
        simp_all
    · rintro ⟨hk, rfl, hnn⟩
      rcases hk with rfl | rfl | rfl | rfl <;> simp_all
  · intro n
    exact encodeURIComponent_ne_empty _ (int_repr_ne_empty n)

/-- Witness for C8 at a concrete request: `value` is null and `gasPrice`
is absent, so only `to` and `gas` survive; in particular the present,
non-null `gas` parameter is included with its value. -/
theorem estimateGas_null_omission_witness :
    ("gas", JsVal.num 100) ∈ estimateGasParams
      (.obj [("to", .str "0xabc"), ("value", .nullv), ("gas", .num 100)]) :=
  ((estimateGas_null_omission _).1 "gas" (.num 100)).mpr
    ⟨by simp, rfl, rfl⟩
